import Mathlib

/-!
# Verification of the playlist sync engine (`src/yt.py`)

This file gives a shallow embedding, in Lean 4, of the pure logic of the
playlist synchronisation script `yt.py`, together with theorems settling a
set of specification claims about it.

Modelling conventions:

* Python strings are modelled by Lean `String`s; iteration and ordering are
  performed on their underlying `List Char` (code-point lists), matching
  Python's code-point semantics.
* Filesystem state (the working directory) is modelled explicitly as a list
  of file names, or of `(name, content)` pairs where overwriting matters.
  Functions of the source that read or mutate the directory become pure
  functions of that explicit state.
* The external subprocesses (`yt-dlp`, `ffprobe`, `tageditor`), the network
  and the clock are modelled by explicit inputs describing their outcome
  (exit status, produced output, reported tag value, HTTP response).
* Python's `sorted`/`list.sort` (a stable sort) is modelled by
  `List.insertionSort` with the corresponding `≤` relation, which is also
  stable.
* Regular expressions of the source are translated into explicit list
  processing, including Python's rule that `$` also matches just before a
  single trailing newline.
-/

/-! ## Character classes and small string utilities -/

/-- The character class `[a-zA-Z0-9_-]` used for YouTube video identifiers. -/
def idChar (c : Char) : Bool :=
  ('a' ≤ c && c ≤ 'z') || ('A' ≤ c && c ≤ 'Z') || ('0' ≤ c && c ≤ '9') ||
    c == '_' || c == '-'

/-- The character class `[0-9]` (Python `\d` on ASCII input). -/
def digitChar (c : Char) : Bool := '0' ≤ c && c ≤ '9'

/-- Python's `$` anchor also matches just before one trailing newline; for a
fully anchored pattern whose tail cannot consume a newline this amounts to
ignoring one final `'\n'`. -/
def dollarStrip (cs : List Char) : List Char :=
  if cs.getLast? = some '\n' then cs.dropLast else cs

/-- Code-point lexicographic `≤` on character lists (Python string order). -/
def lexLe : List Char → List Char → Bool
  | [], _ => true
  | _ :: _, [] => false
  | a :: as, b :: bs =>
    if a.toNat < b.toNat then true
    else if b.toNat < a.toNat then false
    else lexLe as bs

/-- Python string `≤` (code-point lexicographic order), used to model
`sorted()` on file names. -/
def pyStrLe (a b : String) : Bool := lexLe a.data b.data

/-- Substring test on character lists (Python's `in` on `str`). -/
def subAt : List Char → List Char → Bool
  | [], _ => true
  | _ :: _, [] => false
  | a :: as, b :: bs => (a == b && (as.isPrefixOf bs)) || subAt (a :: as) bs

/-- `containsSub pat s` models Python's `pat in s` for strings. -/
def containsSub (pat s : String) : Bool := subAt pat.data s.data

/-! ## `extract_video_id` (src/yt.py 183-192)

```python
def extract_video_id(filename: str) -> str | None:
    match = re.search(r"\[([a-zA-Z0-9_-]{11})\]\.[^.]+$", filename)
    if match:
        return match.group(1)
    match = re.match(r"^([a-zA-Z0-9_-]{11})\.[^.]+$", filename)
    if match:
        return match.group(1)
    return None
```

Both patterns end in `\.[^.]+$`: the `\.` can only be the last `'.'` of the
string, the extension run after it is nonempty and dot-free (`[^.]` does
match `'\n'`, so the `$`-before-trailing-newline rule adds no extra
matches).  We analyse the reversed character list: the extension is the
maximal dot-free tail. -/

/-- The bracketed regex `\[([a-zA-Z0-9_-]{11})\]\.[^.]+$` of
`extract_video_id`, via last-dot analysis of the reversed name: the
extension is the maximal dot-free tail (nonempty), immediately preceded by
`].`, with the 11 identifier characters and `[` before it. -/
def bracketedId (cs : List Char) : Option String :=
  let rev := cs.reverse
  let ext := rev.takeWhile (fun c => c != '.')
  let rest := rev.dropWhile (fun c => c != '.')
  if ext ≠ [] ∧ rest.take 2 = ['.', ']'] ∧
      ((rest.drop 2).take 11).length = 11 ∧ ((rest.drop 2).take 11).all idChar ∧
      ((rest.drop 2).drop 11).take 1 = ['['] then
    some (String.mk ((rest.drop 2).take 11).reverse)
  else none

/-- The anchored bare regex `^([a-zA-Z0-9_-]{11})\.[^.]+$` of
`extract_video_id`. -/
def bareId (cs : List Char) : Option String :=
  if (cs.take 11).length = 11 ∧ (cs.take 11).all idChar ∧
      (cs.drop 11).take 1 = ['.'] ∧ cs.drop 12 ≠ [] ∧
      (cs.drop 12).all (fun c => c != '.') then
    some (String.mk (cs.take 11))
  else none

/-- Model of `extract_video_id`: the bracketed pattern is tried first, then
the bare pattern, otherwise `none`. -/
def extract_video_id (filename : String) : Option String :=
  match bracketedId filename.data with
  | some v => some v
  | none => bareId filename.data

/-! ## `extract_base_filename`, `generate_indexed_filename` (src/yt.py 195-203) -/

/-- The match of `^(\d{3}) - (.+)$` (group 2), where `.` does not match a
newline and `$` may sit before one trailing newline. -/
def baseMatch (cs : List Char) : Option (List Char) :=
  if (cs.take 3).length = 3 ∧ (cs.take 3).all digitChar ∧
      (cs.drop 3).take 3 = [' ', '-', ' '] ∧
      dollarStrip (cs.drop 6) ≠ [] ∧
      (dollarStrip (cs.drop 6)).all (fun c => c != '\n') then
    some (dollarStrip (cs.drop 6))
  else none

/-- Model of `extract_base_filename`: strip a `NNN - ` numbering from the
front of a name, if present. -/
def extract_base_filename (filename : String) : String :=
  match baseMatch filename.data with
  | some rest => String.mk rest
  | none => filename

/-- Python `f"{index:03d}"` for a natural number. -/
def pad3 (index : Nat) : String :=
  if index < 10 then "00" ++ toString index
  else if index < 100 then "0" ++ toString index
  else toString index

/-- Python `f"{index:03d}"` for a (possibly negative) int: the sign counts
towards the width of 3. -/
def pad3i (index : Int) : String :=
  if index < 0 then
    if index > -10 then "-0" ++ toString index.natAbs
    else "-" ++ toString index.natAbs
  else pad3 index.toNat

/-- Model of `generate_indexed_filename`. -/
def generate_indexed_filename (index : Int) (base : String) : String :=
  pad3i index ++ " - " ++ base

/-! ## Claim C9: the two shapes of identifier extraction -/

/-- Spec-side shape (from the claim's words): a bracketed 11-character
identifier of `[a-zA-Z0-9_-]` immediately before the final extension. -/
def bracketedShape (s vid : String) : Prop :=
  ∃ pre ext : List Char,
    s.data = pre ++ '[' :: vid.data ++ ']' :: '.' :: ext ∧
    vid.data.length = 11 ∧ (∀ c ∈ vid.data, idChar c) ∧
    ext ≠ [] ∧ ∀ c ∈ ext, c ≠ '.'

/-- Spec-side shape (from the claim's words): a bare filename that is
exactly an 11-character identifier followed by a single extension. -/
def bareShape (s vid : String) : Prop :=
  ∃ ext : List Char,
    s.data = vid.data ++ '.' :: ext ∧
    vid.data.length = 11 ∧ (∀ c ∈ vid.data, idChar c) ∧
    ext ≠ [] ∧ ∀ c ∈ ext, c ≠ '.'

/-! ## SHA-256

`get_sb_hash` fingerprints the normalized segment list with
`hashlib.sha256(...).hexdigest()`.  We implement SHA-256 over byte lists
(`Nat` arithmetic mod 2^32) so fingerprints are computable in proofs. -/

def w32 (n : Nat) : Nat := n % 4294967296

def rotr32 (r n : Nat) : Nat := w32 (Nat.lor (n >>> r) (n <<< (32 - r)))

def shaS0 (x : Nat) : Nat := Nat.xor (rotr32 2 x) (Nat.xor (rotr32 13 x) (rotr32 22 x))
def shaS1 (x : Nat) : Nat := Nat.xor (rotr32 6 x) (Nat.xor (rotr32 11 x) (rotr32 25 x))
def shas0 (x : Nat) : Nat := Nat.xor (rotr32 7 x) (Nat.xor (rotr32 18 x) (x >>> 3))
def shas1 (x : Nat) : Nat := Nat.xor (rotr32 17 x) (Nat.xor (rotr32 19 x) (x >>> 10))
def shaCh (x y z : Nat) : Nat := Nat.xor (Nat.land x y) (Nat.land (Nat.xor x 4294967295) z)
def shaMaj (x y z : Nat) : Nat :=
  Nat.xor (Nat.land x y) (Nat.xor (Nat.land x z) (Nat.land y z))

def shaK : List Nat :=
  [1116352408, 1899447441, 3049323471, 3921009573, 961987163,
   1508970993, 2453635748, 2870763221, 3624381080, 310598401,
   607225278, 1426881987, 1925078388, 2162078206, 2614888103,
   3248222580, 3835390401, 4022224774, 264347078, 604807628,
   770255983, 1249150122, 1555081692, 1996064986, 2554220882,
   2821834349, 2952996808, 3210313671, 3336571891, 3584528711,
   113926993, 338241895, 666307205, 773529912, 1294757372,
   1396182291, 1695183700, 1986661051, 2177026350, 2456956037,
   2730485921, 2820302411, 3259730800, 3345764771, 3516065817,
   3600352804, 4094571909, 275423344, 430227734, 506948616,
   659060556, 883997877, 958139571, 1322822218, 1537002063,
   1747873779, 1955562222, 2024104815, 2227730452, 2361852424,
   2428436474, 2756734187, 3204031479, 3329325298]

def shaH0 : List Nat :=
  [1779033703, 3144134277, 1013904242, 2773480762,
   1359893119, 2600822924, 528734635, 1541459225]

def be64 (n : Nat) : List Nat :=
  [n >>> 56 % 256, n >>> 48 % 256, n >>> 40 % 256, n >>> 32 % 256,
   n >>> 24 % 256, n >>> 16 % 256, n >>> 8 % 256, n % 256]

def shaPad (msg : List Nat) : List Nat :=
  msg ++ 0x80 :: List.replicate ((120 - (msg.length + 1) % 64) % 64) 0 ++ be64 (8 * msg.length)

def bytesToWords : List Nat → List Nat
  | a :: b :: c :: d :: rest => (((a * 256 + b) * 256 + c) * 256 + d) :: bytesToWords rest
  | _ => []

def chunk16 : List Nat → List (List Nat)
  | a1 :: a2 :: a3 :: a4 :: a5 :: a6 :: a7 :: a8 ::
    a9 :: a10 :: a11 :: a12 :: a13 :: a14 :: a15 :: a16 :: rest =>
    [a1, a2, a3, a4, a5, a6, a7, a8, a9, a10, a11, a12, a13, a14, a15, a16] ::
      chunk16 rest
  | _ => []

def shaExtendStep (w : List Nat) : List Nat :=
  w ++ [w32 (shas1 (w.getD (w.length - 2) 0) + w.getD (w.length - 7) 0 +
    shas0 (w.getD (w.length - 15) 0) + w.getD (w.length - 16) 0)]

def shaSchedule (ws : List Nat) : List Nat := shaExtendStep^[48] ws

def shaRound (st : List Nat) (kw : Nat × Nat) : List Nat :=
  match st with
  | [a, b, c, d, e, f, g, h] =>
    let t1 := w32 (h + shaS1 e + shaCh e f g + kw.1 + kw.2)
    let t2 := w32 (shaS0 a + shaMaj a b c)
    [w32 (t1 + t2), a, b, c, w32 (d + t1), e, f, g]
  | _ => st

def shaBlock (hv : List Nat) (block : List Nat) : List Nat :=
  let st := (shaK.zip (shaSchedule block)).foldl shaRound hv
  List.zipWith (fun x y => w32 (x + y)) hv st

def sha256bytes (msg : List Nat) : List Nat :=
  (chunk16 (bytesToWords (shaPad msg))).foldl shaBlock shaH0

def hexDigit (n : Nat) : Char := if n < 10 then Char.ofNat (48 + n) else Char.ofNat (87 + n)

def hex8 (n : Nat) : List Char :=
  [hexDigit (n / 268435456 % 16), hexDigit (n / 16777216 % 16),
   hexDigit (n / 1048576 % 16), hexDigit (n / 65536 % 16),
   hexDigit (n / 4096 % 16), hexDigit (n / 256 % 16),
   hexDigit (n / 16 % 16), hexDigit (n % 16)]

def sha256hex (s : String) : String :=
  String.mk (((sha256bytes (s.data.map Char.toNat)).map hex8).flatten)

/-! ## SponsorBlock segment data and `get_sb_hash` (src/yt.py 421-463)

The annotation service returns a JSON array of segment objects.  We model a
well-shaped response record as `SBSeg`: a `[start, end]` pair of decimal
numbers plus a category string — exactly the two fields `get_sb_hash`
projects into its normalized list.  JSON numbers are modelled as decimal
fixed-point literals `mant / 10^exp` (`DecNum`), whose `render` matches
Python's `repr`/`json.dumps` output for floats that round-trip through a
short decimal literal (the case for all SponsorBlock offsets); category
strings are assumed to need no JSON escaping (they come from a fixed ASCII
vocabulary). -/

/-- A decimal number `mant / 10^exp` as parsed from a JSON float literal.
Canonical representation: `exp = 0` or `mant` not divisible by 10. -/
structure DecNum where
  mant : Int
  exp : Nat
deriving DecidableEq

/-- Value comparison `a ≤ b` of two decimal numbers (the order used by
Python's `sorted(..., key=lambda x: float(x["segment"][0]))`). -/
def DecNum.Le (a b : DecNum) : Prop :=
  a.mant * (10 : Int) ^ b.exp ≤ b.mant * (10 : Int) ^ a.exp

instance : DecidableRel DecNum.Le := fun a b =>
  inferInstanceAs (Decidable (_ ≤ _))

/-- Value equality of two decimal numbers (they denote the same float). -/
def DecNum.sameVal (a b : DecNum) : Prop :=
  a.mant * (10 : Int) ^ b.exp = b.mant * (10 : Int) ^ a.exp

instance : Decidable (DecNum.sameVal a b) :=
  inferInstanceAs (Decidable (_ = _))

/-- Python `repr`/`json.dumps` rendering of the float denoted by a
canonical `DecNum` (e.g. `⟨0,0⟩ ↦ "0.0"`, `⟨105,1⟩ ↦ "10.5"`). -/
def DecNum.render (a : DecNum) : String :=
  let sign : String := if a.mant < 0 then "-" else ""
  let digs := Nat.toDigits 10 a.mant.natAbs
  if a.exp = 0 then sign ++ String.mk digs ++ ".0"
  else
    let digs' := if digs.length ≤ a.exp then
      List.replicate (a.exp + 1 - digs.length) '0' ++ digs else digs
    sign ++ String.mk (digs'.take (digs'.length - a.exp)) ++ "." ++
      String.mk (digs'.drop (digs'.length - a.exp))

/-- One segment object of the annotation response, already projected to
`{"segment": [start, end], "category": category}` as `get_sb_hash` does. -/
structure SBSeg where
  start : DecNum
  stop : DecNum
  category : String
deriving DecidableEq

/-- Sort key of `get_sb_hash`'s normalization: ascending start offset. -/
def segLe (a b : SBSeg) : Prop := DecNum.Le a.start b.start

instance : DecidableRel segLe := fun a b =>
  inferInstanceAs (Decidable (DecNum.Le _ _))

/-- `json.dumps(seg, sort_keys=True)` of one projected segment object:
keys are emitted in sorted order (`"category"` before `"segment"`),
separators are `", "` and `": "`. -/
def jsonSeg (s : SBSeg) : String :=
  "\x7b\"category\": \"" ++ s.category ++ "\", \"segment\": [" ++
    s.start.render ++ ", " ++ s.stop.render ++ "]\x7d"

/-- `json.dumps` of the normalized segment list. -/
def jsonSegList (l : List SBSeg) : String :=
  "[" ++ String.intercalate ", " (l.map jsonSeg) ++ "]"

/-- The normalization of `get_sb_hash`: Python's stable `sorted` by start
offset (modelled by the stable `List.insertionSort`), then deterministic
serialization. -/
def normalized_str (data : List SBSeg) : String :=
  jsonSegList (List.insertionSort segLe data)

/-- Outcome of the annotation-service request for one item, as
distinguished by `get_sb_hash`: HTTP 404; any other failure caught by
`except (requests.RequestException, json.JSONDecodeError, KeyError,
TypeError)` (timeout, transient HTTP error, malformed body); or a parsed
segment array. -/
inductive SBResponse where
  | notFound : SBResponse
  | transientError : SBResponse
  | ok : List SBSeg → SBResponse
deriving DecidableEq

/-- Model of `get_sb_hash`: 404 ↦ sentinel, any caught error ↦ sentinel,
empty array ↦ sentinel, otherwise the SHA-256 hex digest of the
deterministically serialized, start-sorted segment list. -/
def get_sb_hash : SBResponse → String
  | .notFound => "no_segments"
  | .transientError => "no_segments"
  | .ok [] => "no_segments"
  | .ok data => sha256hex (normalized_str data)

/-! ## Stored index records and the SponsorBlock change check
(src/yt.py 123-140, 404-413, 856-880) -/

/-- One song row of the persisted index (`Song` dataclass). -/
structure Song where
  id : String
  track : Int
  file : String
  sb_hash : Option String
deriving DecidableEq

/-- Model of `get_stored_sb_hash`: the `sb_hash` of the first index row
with the given id, if any.  The on-disk index is modelled as `none`
(missing/unreadable) or the loaded list of rows. -/
def get_stored_sb_hash (index : Option (List Song)) (vid : String) :
    Option String :=
  match index with
  | none => none
  | some songs =>
    match songs.find? (fun s => s.id == vid) with
    | some song => song.sb_hash
    | none => none

/-- `is_first_run = existing_index is None or len(existing_index.songs) == 0`
(src/yt.py 857). -/
def is_first_run (index : Option (List Song)) : Bool :=
  match index with
  | none => true
  | some songs => songs.isEmpty

/-- Phase-6 change flag for one item (src/yt.py 872-878): an item enters
`sb_changes` (the re-fetch queue) iff this returns `true`. -/
def sb_flagged (index : Option (List Song)) (newly : List String)
    (vid : String) (new_hash : String) : Bool :=
  if is_first_run index || newly.contains vid then false
  else
    match get_stored_sb_hash index vid with
    | none => false
    | some stored => stored != new_hash

/-- Phase-6 outcome for one locally present item: the change flag together
with the fingerprint recorded into `sb_hashes[vid]` — which is what
`save_index` then persists for that id (src/yt.py 629, 869-878, 944). -/
def sb_check_item (index : Option (List Song)) (newly : List String)
    (vid : String) (resp : SBResponse) : Bool × String :=
  (sb_flagged index newly vid (get_sb_hash resp), get_sb_hash resp)

/-- Concrete segments for evaluation: two segments sharing start offset
`0.0` with different categories and ends. -/
def segSponsor0 : SBSeg := ⟨⟨0, 0⟩, ⟨10, 0⟩, "sponsor"⟩

/-- Second concrete segment, same start offset as `segSponsor0`. -/
def segIntro0 : SBSeg := ⟨⟨0, 0⟩, ⟨5, 0⟩, "intro"⟩

/-- Totality of the sort key order. -/
instance : IsTotal SBSeg segLe :=
  ⟨fun a b => Int.le_total (a.start.mant * (10 : Int) ^ b.start.exp)
    (b.start.mant * (10 : Int) ^ a.start.exp)⟩

/-- Transitivity of the sort key order. -/
instance : IsTrans SBSeg segLe := by
  constructor
  intro a b c h1 h2
  have h1' : a.start.mant * (10 : Int) ^ b.start.exp ≤
      b.start.mant * (10 : Int) ^ a.start.exp := h1
  have h2' : b.start.mant * (10 : Int) ^ c.start.exp ≤
      c.start.mant * (10 : Int) ^ b.start.exp := h2
  have pB : (0 : Int) < 10 ^ b.start.exp := pow_pos (by norm_num) _
  have pA : (0 : Int) ≤ 10 ^ a.start.exp := le_of_lt (pow_pos (by norm_num) _)
  have pC : (0 : Int) ≤ 10 ^ c.start.exp := le_of_lt (pow_pos (by norm_num) _)
  have h1m := mul_le_mul_of_nonneg_right h1' pC
  have h2m := mul_le_mul_of_nonneg_right h2' pA
  have hch : a.start.mant * (10 : Int) ^ c.start.exp * 10 ^ b.start.exp ≤
      c.start.mant * (10 : Int) ^ a.start.exp * 10 ^ b.start.exp := by
    calc a.start.mant * (10 : Int) ^ c.start.exp * 10 ^ b.start.exp
        = a.start.mant * (10 : Int) ^ b.start.exp * 10 ^ c.start.exp := by ring
      _ ≤ b.start.mant * (10 : Int) ^ a.start.exp * 10 ^ c.start.exp := h1m
      _ = b.start.mant * (10 : Int) ^ c.start.exp * 10 ^ a.start.exp := by ring
      _ ≤ c.start.mant * (10 : Int) ^ b.start.exp * 10 ^ a.start.exp := h2m
      _ = c.start.mant * (10 : Int) ^ a.start.exp * 10 ^ b.start.exp := by ring
  exact le_of_mul_le_mul_right hch pB

/-- A third concrete segment with a distinct start offset `5.0`. -/
def segOutro5 : SBSeg := ⟨⟨5, 0⟩, ⟨20, 0⟩, "outro"⟩

/-- A stored index with one song whose fingerprint is a real (non-sentinel)
value, for concrete evaluation. -/
def demoIndexC1 : Option (List Song) :=
  some [⟨"aaaaaaaaaaa", 1, "001 - x [aaaaaaaaaaa].m4a", some "f00dfeed"⟩]

/-! ## Remote playlist fetching (src/yt.py 684-735)

`fetch_remote_playlist` runs `yt-dlp --flat-playlist -j URL` (exit status
and combined stdout+stderr are modelled as explicit inputs), strips the
output, splits it into lines, and parses each line as JSON independently.
`json.loads` itself is an external library call: it is modelled by a
`parse` function argument mapping a line to `none` (a `JSONDecodeError`)
or to the record fields the code reads. -/

/-- A JSON value, as far as the field reads of `fetch_remote_playlist`
distinguish them: a string, an integer, or anything else. -/
inductive JVal where
  | jstr : String → JVal
  | jint : Int → JVal
  | jother : JVal
deriving DecidableEq

/-- One parsed flat-playlist JSON record: the four fields the code reads,
each possibly absent. -/
structure RawRecord where
  playlist_title : Option JVal := none
  id : Option JVal := none
  url : Option JVal := none
  playlist_index : Option JVal := none
deriving DecidableEq

/-- `RemoteSong` dataclass: one remote playlist entry. -/
structure RemoteSong where
  id : String
  index : Int
deriving DecidableEq

/-- Python whitespace as stripped by `str.strip()`. -/
def pyWs (c : Char) : Bool :=
  c == ' ' || c == '\t' || c == '\n' || c == '\r' || c == '\x0b' || c == '\x0c'

/-- Model of Python `str.strip()`. -/
def pyStrip (s : String) : String :=
  String.mk (((s.data.dropWhile pyWs).reverse.dropWhile pyWs).reverse)

/-- Model of Python `str.split("\n")`. -/
def splitNl : List Char → List (List Char)
  | [] => [[]]
  | '\n' :: rest => [] :: splitNl rest
  | c :: rest =>
    match splitNl rest with
    | [] => [[c]]
    | h :: t => (c :: h) :: t

/-- The lines processed by the fetch loop:
`output.strip().split("\n")`. -/
def outputLines (output : String) : List String :=
  (splitNl (pyStrip output).data).map String.mk

/-- `re.search(r"[a-zA-Z0-9_-]{11}", url)`: the first run of 11 identifier
characters, scanning start positions left to right. -/
def findIdRun : List Char → Option String
  | [] => none
  | c :: rest =>
    if ((c :: rest).take 11).length = 11 && ((c :: rest).take 11).all idChar then
      some (String.mk ((c :: rest).take 11))
    else findIdRun rest

/-- The video id of one record (src/yt.py 710-719): the `id` field if it is
a string; if that is `None` or falsy (empty), and `url` is a string, the
first 11-identifier-character run of `url` (or `None`); a falsy `id` with a
non-string `url` stays as it was. -/
def lineVid (r : RawRecord) : Option String :=
  let v0 : Option String := match r.id with
    | some (.jstr s) => some s
    | _ => none
  if v0 = none ∨ v0 = some "" then
    match r.url with
    | some (.jstr u) => findIdRun u.data
    | _ => v0
  else v0

/-- Python `int(s)` for an all-digit string. -/
def digitsToNat (cs : List Char) : Nat :=
  cs.foldl (fun acc c => acc * 10 + (c.toNat - 48)) 0

/-- The playlist index of one record (src/yt.py 721-726): an `int` field as
is, a digit-string field converted, otherwise `None`. -/
def lineIdx (r : RawRecord) : Option Int :=
  match r.playlist_index with
  | some (.jint n) => some n
  | some (.jstr s) =>
    if s.data ≠ [] ∧ s.data.all digitChar then some (digitsToNat s.data) else none
  | _ => none

/-- The `RemoteSong` appended for one record, if any: requires a truthy
(nonempty) vid and a present index (src/yt.py 728-729). -/
def lineSong (r : RawRecord) : Option RemoteSong :=
  match lineVid r, lineIdx r with
  | some v, some i => if v = "" then none else some ⟨v, i⟩
  | _, _ => none

/-- One iteration of the fetch loop over `(album_name, songs)` state:
empty lines and unparseable lines are skipped; the album title is taken
from the first record carrying a string `playlist_title` while the current
title is still empty. -/
def stepLine (parse : String → Option RawRecord)
    (st : String × List RemoteSong) (line : String) : String × List RemoteSong :=
  if line = "" then st
  else
    match parse line with
    | none => st
    | some r =>
      let album := if st.1 = "" then
          (match r.playlist_title with
           | some (.jstr t) => t
           | _ => st.1)
        else st.1
      match lineSong r with
      | some s => (album, st.2 ++ [s])
      | none => (album, st.2)

/-- The full fetch loop (src/yt.py 696-729). -/
def fetchLoop (parse : String → Option RawRecord) (lines : List String) :
    String × List RemoteSong :=
  lines.foldl (stepLine parse) ("", [])

/-- Model of `fetch_remote_playlist`: raises (`Except.error`) iff the tool
exited non-zero or the stripped output is empty; otherwise processes each
line and falls back to the working directory's name when no playlist title
was found. -/
def fetch_remote_playlist (success : Bool) (output : String)
    (parse : String → Option RawRecord) (cwdName : String) :
    Except String (String × List RemoteSong) :=
  if success = false ∨ pyStrip output = "" then
    Except.error "Failed to fetch playlist"
  else if (fetchLoop parse (outputLines output)).1 = "" then
    Except.ok (cwdName, (fetchLoop parse (outputLines output)).2)
  else Except.ok (fetchLoop parse (outputLines output))

/-- Declarative per-line song extraction, for the characterization of the
fetch loop: an empty or unparseable line yields nothing. -/
def rawSong (parse : String → Option RawRecord) (line : String) :
    Option RemoteSong :=
  if line = "" then none else (parse line).bind lineSong

/-- Pointwise update of a string-keyed map (one Python `dict` insertion). -/
def dictUpd (m : String → Option Int) (k : String) (v : Int) :
    String → Option Int :=
  fun q => if q == k then some v else m q

/-- Model of `remote_map = {s.id: s.index for s in remote_songs}`
(src/yt.py 773): dict-comprehension insertion order, later repeats
overwrite earlier ones. -/
def buildRemoteMap (songs : List RemoteSong) : String → Option Int :=
  songs.foldl (fun m s => dictUpd m s.id s.index) (fun _ => none)

/-- Concrete line parser for evaluation: three parseable lines, the third
repeating the first line's identifier; anything else is unparseable. -/
def demoParse : String → Option RawRecord
  | "L1" => some { playlist_title := some (JVal.jstr "Album"),
                   id := some (JVal.jstr "aaaaaaaaaaa"),
                   playlist_index := some (JVal.jint 5) }
  | "L2" => some { id := some (JVal.jstr "bbbbbbbbbbb"),
                   playlist_index := some (JVal.jint 9) }
  | "L3" => some { id := some (JVal.jstr "aaaaaaaaaaa"),
                   playlist_index := some (JVal.jint 12) }
  | _ => none

/-- Decidable equality for `Except`, for concrete evaluation of fetch
results. -/
instance exceptDecEq {eps alpha : Type} [DecidableEq eps] [DecidableEq alpha] :
    DecidableEq (Except eps alpha) := fun a b =>
  match a, b with
  | .error e, .error f =>
    if h : e = f then .isTrue (h ▸ rfl)
    else .isFalse (fun hc => h (Except.error.inj hc))
  | .ok x, .ok y =>
    if h : x = y then .isTrue (h ▸ rfl)
    else .isFalse (fun hc => h (Except.ok.inj hc))
  | .error _, .ok _ => .isFalse (fun hc => Except.noConfusion hc)
  | .ok _, .error _ => .isFalse (fun hc => Except.noConfusion hc)

/-! ## Local file scanning (src/yt.py 743-755) and the reindex phase
(src/yt.py 824-847)

The working directory is modelled as the list of file names it contains
(in directory-listing order — `glob` promises no particular order and
`scan_local_files` does not sort).  `get_track_from_file` shells out to
`ffprobe`; it is modelled as an oracle `trackOf : String → Nat` giving the
embedded track number of each file (`0` when absent or unreadable, as in
the source). -/

/-- `LocalSong` dataclass: one scanned local file. -/
structure LocalSong where
  id : String
  track : Nat
  path : String
deriving DecidableEq

/-- Whether a name is listed by `directory.glob("*.m4a")`: ends in `.m4a`
and is not a hidden file (glob skips dot-files for a non-dot pattern). -/
def globM4aName (name : String) : Bool :=
  (".m4a".data.isSuffixOf name.data) && name.data.head? != some '.'

/-- Model of `scan_local_files`: every listed `.m4a` file without
`".temp."` in its name and with an extractable identifier yields one
`LocalSong`; nothing is deleted, renamed or merged. -/
def scan_local_files (files : List String) (trackOf : String → Nat) :
    List LocalSong :=
  (files.filter (fun n => globM4aName n && !containsSub ".temp." n)).filterMap
    (fun n => (extract_video_id n).map (fun vid => LocalSong.mk vid (trackOf n) n))

/-- The filesystem effect of the local-state scan and of the orphan
computation (src/yt.py 743-755 and 777-785): neither contains any
`unlink`/`rename` call, so the directory is returned unchanged. -/
def scanFsEffect (files : List String) : List String := files

/-- Model of the orphan computation (src/yt.py 783):
`[s for s in local_songs if s.id not in {r.id for r in remote_songs}]`.
The orphans are counted and reported, nothing more. -/
def orphans (localSongs : List LocalSong) (remoteIds : List String) :
    List LocalSong :=
  localSongs.filter (fun s => !(remoteIds.contains s.id))

/-- Phase 5 (src/yt.py 827-831): each scanned file is keyed by its
remote-map position, absent identifiers getting the sentinel `999`. -/
def reindexPairs (locals : List LocalSong) (rmap : String → Option Int) :
    List (Int × String) :=
  locals.map (fun s => ((rmap s.id).getD 999, s.path))

/-- The comparison used by `reindex_list.sort(key=lambda x: x[0])`. -/
def pairLe (a b : Int × String) : Prop := a.1 ≤ b.1

instance : DecidableRel pairLe := fun a b => Int.decLe a.1 b.1

instance : IsTotal (Int × String) pairLe := ⟨fun a b => Int.le_total a.1 b.1⟩

instance : IsTrans (Int × String) pairLe := ⟨fun _ _ _ h1 h2 => le_trans h1 h2⟩

/-- Python's stable `list.sort(key=lambda x: x[0])` on the reindex list. -/
def sortReindex (l : List (Int × String)) : List (Int × String) :=
  List.insertionSort pairLe l

/-- Phase 5 metadata tasks (src/yt.py 832-835): after the stable sort by
remote position, file number `idx` in sorted order is written track
`idx + 1` — the written tracks are the contiguous `1..N` regardless of the
remote positions' values. -/
def update_tasks (locals : List LocalSong) (rmap : String → Option Int) :
    List (String × Nat) :=
  (sortReindex (reindexPairs locals rmap)).enum.map (fun p => (p.2.2, p.1 + 1))

/-- Concrete directory for C2: two files sharing one identifier (in
non-lexicographic listing order) and one file with no extractable
identifier. -/
def demoFilesC2 : List String :=
  ["dup2 [ccccccccccc].m4a", "dup1 [ccccccccccc].m4a", "noid.m4a"]

/-- Concrete scan input for C10: two files, one mapped to remote position
1000, the other absent from the remote map. -/
def demoLocalsC10 : List LocalSong :=
  [⟨"aaaaaaaaaaa", 0, "a.m4a"⟩, ⟨"bbbbbbbbbbb", 0, "b.m4a"⟩]

/-- Remote map for C10: one identifier at position 1000, the other
unmapped. -/
def demoMapC10 : String → Option Int :=
  fun k => if k == "aaaaaaaaaaa" then some 1000 else none

/-! ## Per-item download (src/yt.py 231-254, 301-321, 476-509)

`download_single` invokes `yt-dlp` for the item's primary URL and, on
failure, for the archival mirror URL.  The two subprocess invocations are
modelled as explicit outcomes (`ToolEnv`).  Note that the directory is
passed only to `cleanup_files_for_video`; the returned status is computed
purely from the subprocess exit statuses. -/

/-- Outcomes of the two `yt-dlp` invocations of one fetch unit: the
primary attempt's status and combined output, and the archival mirror
attempt's status. -/
structure ToolEnv where
  primaryOk : Bool
  primaryOut : String
  archiveOk : Bool
deriving DecidableEq

/-- Model of `truncate_error`: the last nonempty stripped line, cut at 80
characters. -/
def truncate_error (error : String) : String :=
  let lines := ((splitNl (pyStrip error).data).map
    (fun l => pyStrip (String.mk l))).filter (fun l => l ≠ "")
  match lines.getLast? with
  | none => "Unknown error"
  | some last =>
    if last.data.length > 80 then String.mk (last.data.take 77) ++ "..."
    else last

/-- `pathlib.glob` semantics of the patterns `f"*[{video_id}]{ext}"` used
by `cleanup_files_for_video`: in glob syntax the square brackets are a
**character class**, so the pattern matches any non-hidden name that ends
in `ext` directly preceded by one character drawn from the id's
characters. -/
def globCharClass (classChars : List Char) (ext : String) (name : String) :
    Bool :=
  (ext.data.isSuffixOf name.data) &&
  (match (name.data.take (name.data.length - ext.data.length)).getLast? with
   | some c => classChars.contains c
   | none => false) &&
  name.data.head? != some '.'

/-- Model of `cleanup_files_for_video`: deletes every file matching one of
the seven byproduct patterns for the given id.  The glob class is the
id's characters (the class is delimited by the first `]`, so the brackets
themselves are not part of it); a `-` inside an id would additionally
introduce fnmatch ranges, which this model does not cover (the ids used in
concrete theorems below contain no `-`). -/
def cleanup_files_for_video (files : List String) (vid : String) :
    List String :=
  files.filter (fun n =>
    !([".jpg", ".jpeg", ".png", ".webp", ".meta", ".temp.m4a",
       ".m4a.part"].any (fun e => globCharClass vid.data e n)))

/-- Model of `download_single`: try the primary URL; on failure try the
archival mirror; clean up byproducts; report success exactly when one of
the two invocations reported success — the directory is never rescanned
and the reported status never depends on it. -/
def download_single (vid : String) (env : ToolEnv) (dir : List String) :
    (String × Bool × String) × List String :=
  if env.primaryOk then
    ((vid, true, ""), cleanup_files_for_video dir vid)
  else if env.archiveOk then
    ((vid, true, ""), cleanup_files_for_video dir vid)
  else
    ((vid, false, truncate_error env.primaryOut), cleanup_files_for_video dir vid)

/-! ## Atomic index writes (src/yt.py 329-351)

`atomic_json_write` makes a temp file with `tempfile.mkstemp(dir=
filepath.parent)` (a sibling of the target), writes the serialized
document into it, and `shutil.move`s it over the target — a same-directory
(hence same-filesystem) move, performed as an atomic `os.rename`.  The
observable state is the content of the target index file and of the temp
file; the straight-line code is modelled by its step functions with a
fault/crash injected at each possible point.  `mkdir` and `mkstemp` run
before the `try`, so their errors propagate (no return value); errors
inside the `try` (`json.dump`, `shutil.move`) are caught: the handler
unlinks the temp file if present and returns `False`. -/

/-- Contents of the index target file and of the sibling temp file
(`none` = file absent). -/
structure FsState where
  target : Option String
  tmp : Option String
deriving DecidableEq

/-- `tempfile.mkstemp(...)`: creates the (empty) sibling temp file. -/
def mkstempStep (st : FsState) : FsState := { st with tmp := some "" }

/-- `json.dump(data, f, ...)`: fills the temp file with the document. -/
def writeStep (doc : String) (st : FsState) : FsState := { st with tmp := some doc }

/-- `shutil.move(tmp_path, filepath)`: atomically renames the temp file
over the target. -/
def moveStep (st : FsState) : FsState := { target := st.tmp, tmp := none }

/-- The `except OSError` handler: unlink the temp file if it exists,
then return `False`. -/
def awHandler (st : FsState) : FsState := { st with tmp := none }

/-- Every fault/crash point of `atomic_json_write`: completion; an
`OSError` from `mkdir`/`mkstemp` (before the `try`, so it propagates); an
`OSError` during the write (leaving an arbitrary partial temp content) or
during the move, both caught; or a process crash after any step. -/
inductive AwOutcome where
  | complete : AwOutcome
  | mkdirRaise : AwOutcome
  | mkstempRaise : AwOutcome
  | writeFail : String → AwOutcome
  | moveFail : AwOutcome
  | crashAfterMkstemp : AwOutcome
  | crashAfterWrite : AwOutcome
  | crashAfterMove : AwOutcome
deriving DecidableEq

/-- Model of `atomic_json_write` run from state `st` writing document
`doc`, under the given fault/crash outcome.  First component: `some b`
when the function returns `b`, `none` when the exception propagated or the
process died. -/
def atomic_json_write (doc : String) (st : FsState) :
    AwOutcome → Option Bool × FsState
  | .complete => (some true, moveStep (writeStep doc (mkstempStep st)))
  | .mkdirRaise => (none, st)
  | .mkstempRaise => (none, st)
  | .writeFail p => (some false, awHandler { mkstempStep st with tmp := some p })
  | .moveFail => (some false, awHandler (writeStep doc (mkstempStep st)))
  | .crashAfterMkstemp => (none, mkstempStep st)
  | .crashAfterWrite => (none, writeStep doc (mkstempStep st))
  | .crashAfterMove => (none, moveStep (writeStep doc (mkstempStep st)))

/-! ## File renaming (src/yt.py 537-592)

The renamer first plans: it walks the sorted `.m4a` listing, computes each
file's canonical indexed name, and records `(old, new, track)` for names
that differ and whose target does not currently exist; then it executes
the planned renames in track order.  POSIX `Path.rename` silently replaces
an existing target, so the execution phase is modelled on a directory of
`(name, content)` pairs where renaming onto an existing name drops that
name's previous content.  `get_track_from_file` is again the oracle
`trackOf`. -/

/-- The anchored regex `^[a-zA-Z0-9_-]{11}\.m4a$` of the bare-id special
case (src/yt.py 561), with core match on an exact `id.m4a` name. -/
def bareIdM4aCore (cs : List Char) : Bool :=
  (cs.take 11).length = 11 && (cs.take 11).all idChar && cs.drop 11 = ".m4a".data

/-- The same regex with Python's `$`-before-one-trailing-newline rule. -/
def isBareIdM4a (cs : List Char) : Bool :=
  bareIdM4aCore cs || (cs.getLast? == some '\n' && bareIdM4aCore cs.dropLast)

/-- Python string `≤` as a decidable relation, for `sorted()`. -/
def strLe (a b : String) : Prop := pyStrLe a b = true

instance : DecidableRel strLe := fun a b => instDecidableEqBool (pyStrLe a b) true

/-- The names of a `(name, content)` directory. -/
def dirNames (d : List (String × Nat)) : List String := d.map Prod.fst

/-- The track number the renamer uses for one file (src/yt.py 547-552):
the embedded tag if nonzero, else the remote-map position of the extracted
identifier (`0`, meaning unknown, when neither exists). -/
def planTrack (trackOf : String → Nat) (remote_map : String → Option Int)
    (filename : String) : Int :=
  if trackOf filename = 0 then
    match extract_video_id filename with
    | some vid => (remote_map vid).getD 0
    | none => 0
  else (trackOf filename : Int)

/-- The base name used for one file (src/yt.py 558-562): the name with any
`NNN - ` numbering stripped, except that a bare `id.m4a` name becomes
`[id].m4a`. -/
def planBase (filename : String) : String :=
  if isBareIdM4a filename.data && (extract_video_id filename).isSome then
    "[" ++ (extract_video_id filename).getD "" ++ "].m4a"
  else extract_base_filename filename

/-- The canonical indexed name the renamer computes for one file. -/
def planName (trackOf : String → Nat) (remote_map : String → Option Int)
    (filename : String) : String :=
  generate_indexed_filename (planTrack trackOf remote_map filename)
    (planBase filename)

/-- The planning step for one file (src/yt.py 546-575): skip unknown
tracks, skip names already canonical, skip targets that exist in the
directory; otherwise record `(old, new, track)`. -/
def planOne (names : List String) (trackOf : String → Nat)
    (remote_map : String → Option Int) (filename : String) :
    Option (String × String × Int) :=
  if planTrack trackOf remote_map filename = 0 then none
  else if filename = planName trackOf remote_map filename then none
  else if (names.contains (planName trackOf remote_map filename)) = true ∧
      planName trackOf remote_map filename ≠ filename then none
  else some (filename, planName trackOf remote_map filename,
    planTrack trackOf remote_map filename)

/-- The full rename plan: sorted `.m4a` listing, `.temp.` names skipped,
one optional entry per file; the existence check is against the directory
as it is at planning time. -/
def renamePlan (dir : List (String × Nat)) (trackOf : String → Nat)
    (remote_map : String → Option Int) : List (String × String × Int) :=
  ((List.insertionSort strLe ((dirNames dir).filter globM4aName)).filter
    (fun n => !containsSub ".temp." n)).filterMap
    (planOne (dirNames dir) trackOf remote_map)

/-- Comparison for `renames.sort(key=lambda x: x[2])`. -/
def planTrackLe (a b : String × String × Int) : Prop := a.2.2 ≤ b.2.2

instance : DecidableRel planTrackLe := fun a b => Int.decLe a.2.2 b.2.2

/-- One executed `old_path.rename(new_path)` on POSIX: the source's
content moves to the target name, silently replacing any file already
there; a missing source is an `OSError`, logged and skipped. -/
def doRename (d : List (String × Nat)) (oldName newName : String) :
    List (String × Nat) :=
  match d.find? (fun e => e.1 == oldName) with
  | none => d
  | some e => (d.filter (fun x => x.1 ≠ oldName ∧ x.1 ≠ newName)) ++ [(newName, e.2)]

/-- Model of `rename_files_to_indexed_format`: plan, sort by track,
execute sequentially. -/
def rename_files_to_indexed_format (dir : List (String × Nat))
    (trackOf : String → Nat) (remote_map : String → Option Int) :
    List (String × Nat) :=
  (List.insertionSort planTrackLe (renamePlan dir trackOf remote_map)).foldl
    (fun d e => doRename d e.1 e.2.1) dir

/-- Concrete directory for C7: two distinct files whose canonical names
coincide (`005 - abc.m4a`), with contents tokens 0 and 1. -/
def demoDirC7 : List (String × Nat) := [("004 - abc.m4a", 0), ("abc.m4a", 1)]

/-- Track oracle for C7: both demo files carry embedded track 5. -/
def demoTrackC7 : String → Nat :=
  fun n => if n == "004 - abc.m4a" || n == "abc.m4a" then 5 else 0

/-- `takeWhile` over a split list: the prefix all satisfying `p`, the pivot
failing it. -/
theorem takeWhile_app {p : Char → Bool} {l₁ l₂ : List Char} {c : Char}
    (h₁ : ∀ a ∈ l₁, p a = true) (hc : p c = false) :
    (l₁ ++ c :: l₂).takeWhile p = l₁ := by
  induction l₁ with
  | nil => simp [List.takeWhile_cons, hc]
  | cons a as ih =>
    have ha := h₁ a (List.mem_cons_self a as)
    simp only [List.cons_append, List.takeWhile_cons, ha, if_true]
    rw [ih (fun x hx => h₁ x (List.mem_cons_of_mem a hx))]

/-- `dropWhile` over a split list. -/
theorem dropWhile_app {p : Char → Bool} {l₁ l₂ : List Char} {c : Char}
    (h₁ : ∀ a ∈ l₁, p a = true) (hc : p c = false) :
    (l₁ ++ c :: l₂).dropWhile p = c :: l₂ := by
  induction l₁ with
  | nil => simp [List.dropWhile_cons, hc]
  | cons a as ih =>
    have ha := h₁ a (List.mem_cons_self a as)
    simp only [List.cons_append, List.dropWhile_cons, ha, if_true]
    exact ih (fun x hx => h₁ x (List.mem_cons_of_mem a hx))

/-- C9: identifier extraction succeeds in exactly the two shapes — a
bracketed 11-character identifier immediately before the final (dot-free,
nonempty) extension, or a bare name that is exactly an 11-character
identifier followed by a single extension; every other filename yields
`none`.  (The two shapes are mutually exclusive, so the bracketed-first
order of `extract_video_id` is consistent with this equivalence.) -/
theorem C9_extract_video_id_shapes (s vid : String) :
    extract_video_id s = some vid ↔ bracketedShape s vid ∨ bareShape s vid := by
  constructor
  · intro h
    unfold extract_video_id at h
    cases hb : bracketedId s.data with
    | some v =>
      rw [hb] at h
      dsimp only at h
      injection h with hv
      left
      unfold bracketedId at hb
      dsimp only at hb
      split at hb
      case isTrue hcond =>
        obtain ⟨hne, htake2, hlen, hall, htake1⟩ := hcond
        injection hb with hb'
        have hvdata : vid.data = ((((s.data.reverse.dropWhile
            (fun c => c != '.')).drop 2).take 11)).reverse := by
          rw [← hv, ← hb']
        set E := s.data.reverse.takeWhile (fun c => c != '.') with hE
        set R := s.data.reverse.dropWhile (fun c => c != '.') with hR
        have h1 : E ++ R = s.data.reverse := List.takeWhile_append_dropWhile _ _
        have h2 : R = '.' :: ']' :: R.drop 2 := by
          conv_lhs => rw [← List.take_append_drop 2 R]
          rw [htake2]
          rfl
        have h3 : R.drop 2 = (R.drop 2).take 11 ++ (R.drop 2).drop 11 :=
          (List.take_append_drop 11 (R.drop 2)).symm
        have h4 : (R.drop 2).drop 11 =
            '[' :: ((R.drop 2).drop 11).drop 1 := by
          conv_lhs => rw [← List.take_append_drop 1 ((R.drop 2).drop 11)]
          rw [htake1]
          rfl
        refine ⟨(((R.drop 2).drop 11).drop 1).reverse, E.reverse, ?_, ?_, ?_, ?_, ?_⟩
        · have h5 := h1.symm
          rw [h2] at h5
          conv_rhs at h5 => rw [h3, h4]
          have h6 : s.data = (E ++ '.' :: ']' ::
              ((R.drop 2).take 11 ++ '[' :: ((R.drop 2).drop 11).drop 1)).reverse := by
            rw [← h5, List.reverse_reverse]
          rw [h6, hvdata]
          simp [List.reverse_append, List.append_assoc]
        · rw [hvdata, List.length_reverse]
          exact hlen
        · intro c hc
          rw [hvdata, List.mem_reverse] at hc
          exact List.all_eq_true.mp hall c hc
        · simpa using hne
        · intro c hc
          rw [List.mem_reverse] at hc
          have := List.mem_takeWhile_imp hc
          simpa using this
      case isFalse => exact absurd hb (by simp)
    | none =>
      rw [hb] at h
      dsimp only at h
      right
      unfold bareId at h
      split at h
      case isTrue hcond =>
        obtain ⟨hlen, hall, htake1, hne, hdot⟩ := hcond
        injection h with hv
        have hvdata : vid.data = s.data.take 11 := by rw [← hv]
        refine ⟨s.data.drop 12, ?_, ?_, ?_, ?_, ?_⟩
        · have h1 : s.data.drop 11 = '.' :: s.data.drop 12 := by
            conv_lhs => rw [← List.take_append_drop 1 (s.data.drop 11)]
            rw [htake1, List.drop_drop]
            rfl
          conv_lhs => rw [← List.take_append_drop 11 s.data]
          rw [h1, hvdata]
        · rw [hvdata]
          exact hlen
        · intro c hc
          rw [hvdata] at hc
          exact List.all_eq_true.mp hall c hc
        · exact hne
        · intro c hc
          have := List.all_eq_true.mp hdot c hc
          simpa using this
      case isFalse => exact absurd h (by simp)
  · intro h
    unfold extract_video_id
    rcases h with hbr | hba
    · obtain ⟨pre, ext, hs, hlen, hall, hne, hdot⟩ := hbr
      have hrev : s.data.reverse =
          ext.reverse ++ '.' :: (']' :: (vid.data.reverse ++ '[' :: pre.reverse)) := by
        rw [hs]
        simp [List.reverse_append, List.append_assoc]
      have hmemR : ∀ a ∈ ext.reverse, (a != '.') = true := by
        intro a ha
        rw [List.mem_reverse] at ha
        simp [hdot a ha]
      have hTW : s.data.reverse.takeWhile (fun c => c != '.') = ext.reverse := by
        rw [hrev]
        exact takeWhile_app hmemR (by simp)
      have hDW : s.data.reverse.dropWhile (fun c => c != '.') =
          '.' :: (']' :: (vid.data.reverse ++ '[' :: pre.reverse)) := by
        rw [hrev]
        exact dropWhile_app hmemR (by simp)
      have hbid : bracketedId s.data = some vid := by
        unfold bracketedId
        dsimp only
        rw [hTW, hDW]
        have hlen' : vid.data.reverse.length = 11 := by
          rw [List.length_reverse]; exact hlen
        have htail : (('.' :: (']' :: (vid.data.reverse ++ '[' :: pre.reverse))).drop 2) =
            vid.data.reverse ++ '[' :: pre.reverse := rfl
        rw [htail]
        have htake : (vid.data.reverse ++ '[' :: pre.reverse).take 11 =
            vid.data.reverse := List.take_left' hlen'
        have hdrop : (vid.data.reverse ++ '[' :: pre.reverse).drop 11 =
            '[' :: pre.reverse := List.drop_left' hlen'
        rw [if_pos]
        · rw [htake, List.reverse_reverse]
        · refine ⟨by simpa using hne, rfl, ?_, ?_, ?_⟩
          · rw [htake, List.length_reverse]; exact hlen
          · rw [htake]
            rw [List.all_reverse]
            exact List.all_eq_true.mpr (fun c hc => hall c hc)
          · rw [hdrop]
            rfl
      rw [hbid]
    · obtain ⟨ext, hs, hlen, hall, hne, hdot⟩ := hba
      have hrev : s.data.reverse = ext.reverse ++ '.' :: vid.data.reverse := by
        rw [hs]
        simp [List.reverse_append]
      have hmemR : ∀ a ∈ ext.reverse, (a != '.') = true := by
        intro a ha
        rw [List.mem_reverse] at ha
        simp [hdot a ha]
      have hTW : s.data.reverse.takeWhile (fun c => c != '.') = ext.reverse := by
        rw [hrev]
        exact takeWhile_app hmemR (by simp)
      have hDW : s.data.reverse.dropWhile (fun c => c != '.') =
          '.' :: vid.data.reverse := by
        rw [hrev]
        exact dropWhile_app hmemR (by simp)
      have hvne : vid.data.reverse ≠ [] := by
        intro hcon
        have := congrArg List.length hcon
        rw [List.length_reverse, hlen] at this
        simp at this
      obtain ⟨c, cr, hcr⟩ := List.exists_cons_of_ne_nil hvne
      have hcmem : c ∈ vid.data := by
        rw [← List.mem_reverse, hcr]
        exact List.mem_cons_self c cr
      have hcid : idChar c = true := hall c hcmem
      have hcne : c ≠ ']' := by
        intro hcon
        rw [hcon] at hcid
        simp [idChar] at hcid
      have hbid : bracketedId s.data = none := by
        unfold bracketedId
        dsimp only
        rw [hDW, hcr]
        rw [if_neg]
        intro hcond
        obtain ⟨-, htake2, -⟩ := hcond
        have : c = ']' := by
          have := congrArg (fun l => l.get? 1) htake2
          simpa using this
        exact hcne this
      rw [hbid]
      dsimp only
      unfold bareId
      have htake : s.data.take 11 = vid.data := by
        rw [hs]
        exact List.take_left' hlen
      have hdrop : s.data.drop 11 = '.' :: ext := by
        rw [hs]
        exact List.drop_left' hlen
      have hdrop12 : s.data.drop 12 = ext := by
        have : s.data.drop 12 = (s.data.drop 11).drop 1 := by
          rw [List.drop_drop]
        rw [this, hdrop]
        rfl
      rw [if_pos]
      · rw [htake]
      · refine ⟨?_, ?_, ?_, ?_, ?_⟩
        · rw [htake]; exact hlen
        · rw [htake]
          exact List.all_eq_true.mpr (fun x hx => hall x hx)
        · rw [hdrop]
          rfl
        · rw [hdrop12]; exact hne
        · rw [hdrop12]
          exact List.all_eq_true.mpr (fun x hx => by simp [hdot x hx])

/-- C8 counterexample: two segments sharing start offset `0.0` (different
categories) — reordering the input changes the fingerprint, because
Python's stable `sorted` only sorts by start offset and so preserves the
input order of tied segments, which the serialization then exposes. -/
theorem C8_counterexample :
    List.Perm [segIntro0, segSponsor0] [segSponsor0, segIntro0] ∧
    get_sb_hash (SBResponse.ok [segIntro0, segSponsor0]) ≠
      get_sb_hash (SBResponse.ok [segSponsor0, segIntro0]) :=
  ⟨List.Perm.swap segSponsor0 segIntro0 [], by decide⟩

/-- C8 (amended): computing the fingerprint over the same segment list is
deterministic, and reordering the input yields an identical fingerprint
provided all start offsets are pairwise distinct (sort-before-hash is
order-independent only up to ties in the start offset). -/
theorem C8_amended_fingerprint (l₁ l₂ : List SBSeg) (hp : l₁.Perm l₂)
    (hd : l₁.Pairwise fun a b => ¬ a.start.sameVal b.start) :
    get_sb_hash (SBResponse.ok l₁) = get_sb_hash (SBResponse.ok l₂) := by
  have hsym : ∀ {x y : SBSeg}, ¬ x.start.sameVal y.start →
      ¬ y.start.sameVal x.start := fun hxy h => hxy h.symm
  have hd₂ : l₂.Pairwise fun a b => ¬ a.start.sameVal b.start :=
    (hp.pairwise_iff hsym).mp hd
  have hr1 : (List.insertionSort segLe l₁).Pairwise
      (fun a b => segLe a b ∧ ¬ a.start.sameVal b.start) :=
    (List.sorted_insertionSort segLe l₁).and
      (((List.perm_insertionSort segLe l₁).pairwise_iff hsym).mpr hd)
  have hr2 : (List.insertionSort segLe l₂).Pairwise
      (fun a b => segLe a b ∧ ¬ a.start.sameVal b.start) :=
    (List.sorted_insertionSort segLe l₂).and
      (((List.perm_insertionSort segLe l₂).pairwise_iff hsym).mpr hd₂)
  haveI : IsAntisymm SBSeg (fun a b => segLe a b ∧ ¬ a.start.sameVal b.start) := by
    constructor
    intro a b hab hba
    have h1 : a.start.mant * (10 : Int) ^ b.start.exp ≤
        b.start.mant * (10 : Int) ^ a.start.exp := hab.1
    have h2 : b.start.mant * (10 : Int) ^ a.start.exp ≤
        a.start.mant * (10 : Int) ^ b.start.exp := hba.1
    exact absurd (le_antisymm h1 h2) hab.2
  have hperm : (List.insertionSort segLe l₁).Perm (List.insertionSort segLe l₂) :=
    ((List.perm_insertionSort segLe l₁).trans hp).trans
      (List.perm_insertionSort segLe l₂).symm
  have hsort : List.insertionSort segLe l₁ = List.insertionSort segLe l₂ :=
    List.eq_of_perm_of_sorted hperm hr1 hr2
  cases l₁ with
  | nil =>
    have h2 : l₂ = [] := hp.symm.eq_nil
    subst h2
    rfl
  | cons a as =>
    cases l₂ with
    | nil => exact absurd hp.eq_nil (by simp)
    | cons b bs =>
      show sha256hex (normalized_str (a :: as)) = sha256hex (normalized_str (b :: bs))
      unfold normalized_str
      rw [hsort]

/-- Witness for the amended C8 at two concrete segments with distinct
start offsets `0.0` and `5.0`. -/
theorem C8_amended_fingerprint_witness :
    get_sb_hash (SBResponse.ok [segOutro5, segSponsor0]) =
      get_sb_hash (SBResponse.ok [segSponsor0, segOutro5]) :=
  C8_amended_fingerprint _ _ (List.Perm.swap segSponsor0 segOutro5 []) (by decide)

/-- C1 counterexample: an item with a stored real fingerprint `"f00dfeed"`
whose annotation request ends in a transient error is flagged as changed
(it enters the re-fetch queue) and its recorded fingerprint becomes the
sentinel `"no_segments"` — the previously stored value is not retained. -/
theorem C1_counterexample :
    get_stored_sb_hash demoIndexC1 "aaaaaaaaaaa" = some "f00dfeed" ∧
    sb_check_item demoIndexC1 [] "aaaaaaaaaaa" SBResponse.transientError =
      (true, "no_segments") := by decide

/-- C1 (amended): a transient annotation-service error is treated exactly
like a 404 — the fingerprint recorded for the item (and then persisted by
`save_index`) is the sentinel `"no_segments"`, not the previously stored
value; and the item is flagged as changed (enters the re-fetch queue)
precisely when it is not a first run, was not newly downloaded, and its
stored fingerprint is a real value different from the sentinel.  (No
segment count is stored at all: index rows have no such field.) -/
theorem C1_amended_transient_sentinel (index : Option (List Song))
    (newly : List String) (vid : String) :
    get_sb_hash SBResponse.transientError = "no_segments" ∧
    (sb_flagged index newly vid (get_sb_hash SBResponse.transientError) = true ↔
      is_first_run index = false ∧ newly.contains vid = false ∧
      ∃ h, get_stored_sb_hash index vid = some h ∧ h ≠ "no_segments") := by
  constructor
  · rfl
  · show sb_flagged index newly vid "no_segments" = true ↔ _
    unfold sb_flagged
    cases hf : is_first_run index
    · cases hc : newly.contains vid
      · cases hs : get_stored_sb_hash index vid with
        | none => simp [hs]
        | some stored => simp [hs, bne_iff_ne]
      · simp [hc]
    · simp [hf]

/-- The fetch loop only ever appends to the song list: its result is the
initial list followed by the per-line extracted songs, in line order, with
no merging of repeated identifiers. -/
theorem fetchLoop_songs (parse : String → Option RawRecord)
    (lines : List String) :
    ∀ st : String × List RemoteSong,
      (lines.foldl (stepLine parse) st).2 = st.2 ++ lines.filterMap (rawSong parse) := by
  induction lines with
  | nil => intro st; simp
  | cons l ls ih =>
    intro st
    rw [List.foldl_cons, List.filterMap_cons]
    by_cases hl : l = ""
    · simp [stepLine, rawSong, hl, ih]
    · cases hp : parse l with
      | none => simp [stepLine, rawSong, hl, hp, ih]
      | some r =>
        cases hsng : lineSong r with
        | none => simp [stepLine, rawSong, hl, hp, hsng, ih]
        | some s => simp [stepLine, rawSong, hl, hp, hsng, ih]

/-- The dict comprehension `{s.id: s.index for s in remote_songs}` keeps,
for each identifier, the position of its **last** occurrence. -/
theorem buildRemoteMap_lastWins (songs : List RemoteSong) (k : String) :
    buildRemoteMap songs k =
      (songs.reverse.find? (fun s => s.id == k)).map RemoteSong.index := by
  have H : ∀ m : String → Option Int,
      (songs.foldl (fun m s => dictUpd m s.id s.index) m) k =
        match songs.reverse.find? (fun s => s.id == k) with
        | some t => some t.index
        | none => m k := by
    induction songs with
    | nil => intro m; simp
    | cons s ss ih =>
      intro m
      rw [List.foldl_cons, List.reverse_cons, List.find?_append, ih]
      cases hf : ss.reverse.find? (fun s => s.id == k) with
      | some t => simp
      | none =>
        by_cases hk : s.id = k
        · simp [List.find?, hk, dictUpd]
        · have hb : (s.id == k) = false := beq_eq_false_iff_ne.mpr hk
          have hk' : (k == s.id) = false :=
            beq_eq_false_iff_ne.mpr (fun hc => hk hc.symm)
          simp [List.find?, dictUpd, hb, hk']
  rw [buildRemoteMap, H]
  cases songs.reverse.find? (fun s => s.id == k) <;> simp

/-- C3 counterexample: a fetched list whose third record repeats the first
record's identifier is returned with the repeat retained (no
de-duplication) and with the raw positions `5, 9, 12` (no re-squash to
`1..N`), and the derived identifier-to-position map keeps the **last**
occurrence's position (12), not the first occurrence's (5). -/
theorem C3_counterexample :
    fetch_remote_playlist true "L1\nL2\nL3" demoParse "dir" =
      Except.ok ("Album",
        [⟨"aaaaaaaaaaa", 5⟩, ⟨"bbbbbbbbbbb", 9⟩, ⟨"aaaaaaaaaaa", 12⟩]) ∧
    buildRemoteMap
        [⟨"aaaaaaaaaaa", 5⟩, ⟨"bbbbbbbbbbb", 9⟩, ⟨"aaaaaaaaaaa", 12⟩]
        "aaaaaaaaaaa" = some 12 := by decide

/-- C3 (amended): no de-duplication or position re-squashing happens: a
successfully fetched list consists of one entry per parseable line (empty
and unparseable lines skipped) carrying the line's raw playlist position,
repeated identifiers retained; and the identifier-to-position map built
from it keeps the last occurrence of a repeated identifier. -/
theorem C3_amended_no_dedup (success : Bool) (output : String)
    (parse : String → Option RawRecord) (cwdName album : String)
    (songs : List RemoteSong)
    (h : fetch_remote_playlist success output parse cwdName =
      Except.ok (album, songs)) :
    songs = (outputLines output).filterMap (rawSong parse) ∧
    ∀ k, buildRemoteMap songs k =
      (songs.reverse.find? (fun s => s.id == k)).map RemoteSong.index := by
  constructor
  · unfold fetch_remote_playlist at h
    split at h
    · exact absurd h (by simp)
    · have hloop := fetchLoop_songs parse (outputLines output) ("", [])
      rw [List.nil_append] at hloop
      split at h <;>
      · injection h with h1
        have h2 := congrArg Prod.snd h1
        simp only [] at h2
        rw [← h2]
        exact hloop
  · intro k
    exact buildRemoteMap_lastWins songs k

/-- Witness for the amended C3 at the concrete three-line output. -/
theorem C3_amended_no_dedup_witness :
    ([⟨"aaaaaaaaaaa", 5⟩, ⟨"bbbbbbbbbbb", 9⟩, ⟨"aaaaaaaaaaa", 12⟩] :
        List RemoteSong) =
      (outputLines "L1\nL2\nL3").filterMap (rawSong demoParse) ∧
    ∀ k, buildRemoteMap
        [⟨"aaaaaaaaaaa", 5⟩, ⟨"bbbbbbbbbbb", 9⟩, ⟨"aaaaaaaaaaa", 12⟩] k =
      (([⟨"aaaaaaaaaaa", 5⟩, ⟨"bbbbbbbbbbb", 9⟩,
          (⟨"aaaaaaaaaaa", 12⟩ : RemoteSong)]).reverse.find?
        (fun s => s.id == k)).map RemoteSong.index :=
  C3_amended_no_dedup true "L1\nL2\nL3" demoParse "dir" "Album" _ (by decide)

/-- C6 counterexample: nonempty output in which no line parses (zero
parseable records) does **not** fail the fetch — it succeeds with an empty
song list (and the directory-name album fallback), contradicting "fails
… exactly when … produces no parseable records". -/
theorem C6_counterexample :
    (∀ line ∈ outputLines "junk", rawSong demoParse line = none) ∧
    fetch_remote_playlist true "junk" demoParse "dir" =
      Except.ok ("dir", []) := by decide

/-- C6 (amended): the fetch fails exactly when the external tool exits
non-zero or its stripped output is empty; with nonempty output, each line
is parsed independently and a line that fails to parse is skipped without
failing the fetch (zero parseable lines still succeed, with an empty
list). -/
theorem C6_amended_failure_condition (success : Bool) (output : String)
    (parse : String → Option RawRecord) (cwdName : String) :
    ((∃ e, fetch_remote_playlist success output parse cwdName =
        Except.error e) ↔ success = false ∨ pyStrip output = "") ∧
    ∀ st line, line ≠ "" → parse line = none → stepLine parse st line = st := by
  constructor
  · constructor
    · rintro ⟨e, he⟩
      unfold fetch_remote_playlist at he
      split at he
      · assumption
      · split at he <;> exact absurd he (by simp)
    · intro hcond
      refine ⟨"Failed to fetch playlist", ?_⟩
      unfold fetch_remote_playlist
      rw [if_pos hcond]
  · intro st line hl hp
    unfold stepLine
    rw [if_neg hl, hp]

/-- C2 counterexample: on a directory with two files sharing one
identifier (listed in non-lexicographic order) and one file with no
extractable identifier, and an empty remote identifier set, the scan
deletes nothing: the directory is unchanged (the no-identifier file and
both duplicates are still on disk), both duplicate files appear in the
scan result (so an identifier maps to two on-disk files, and the
lexicographically-first path is not selected), and the two orphans are
merely counted. -/
theorem C2_counterexample :
    scanFsEffect demoFilesC2 = demoFilesC2 ∧
    "noid.m4a" ∈ scanFsEffect demoFilesC2 ∧
    (scan_local_files demoFilesC2 (fun _ => 0)).map LocalSong.id =
      ["ccccccccccc", "ccccccccccc"] ∧
    (scan_local_files demoFilesC2 (fun _ => 0)).map LocalSong.path =
      ["dup2 [ccccccccccc].m4a", "dup1 [ccccccccccc].m4a"] ∧
    (orphans (scan_local_files demoFilesC2 (fun _ => 0)) []).length = 2 := by
  decide

/-- C2 (amended): the local-state scan resolves nothing by deletion — it
performs zero deletions on every directory (there is no unlink in it): a
file with no extractable identifier is skipped from the result but left on
disk, files sharing an identifier all appear in the result (one entry per
file, in listing order), and orphans are merely counted and reported. -/
theorem C2_amended_no_deletion (files : List String)
    (trackOf : String → Nat) (remoteIds : List String) :
    scanFsEffect files = files ∧
    (scan_local_files files trackOf).map LocalSong.id =
      (files.filter
        (fun n => globM4aName n && !containsSub ".temp." n)).filterMap
        extract_video_id ∧
    orphans (scan_local_files files trackOf) remoteIds =
      (scan_local_files files trackOf).filter
        (fun s => !(remoteIds.contains s.id)) := by
  refine ⟨rfl, ?_, rfl⟩
  unfold scan_local_files
  generalize (files.filter (fun n => globM4aName n && !containsSub ".temp." n)) = l
  induction l with
  | nil => simp
  | cons n ns ih =>
    rw [List.filterMap_cons]
    cases hx : extract_video_id n with
    | none => simp [List.filterMap_cons, hx, ih]
    | some vid => simp [List.filterMap_cons, hx, ih]

/-- C10 counterexample: with one file mapped to remote position `1000` and
one unmapped file (sentinel `999`), the unmapped file sorts **before** the
mapped one and receives the smaller track — the sentinel does not place
unmapped files after all mapped files. -/
theorem C10_counterexample :
    demoMapC10 "aaaaaaaaaaa" = some 1000 ∧
    demoMapC10 "bbbbbbbbbbb" = none ∧
    update_tasks demoLocalsC10 demoMapC10 = [("b.m4a", 1), ("a.m4a", 2)] := by
  decide

/-- C10 (amended): the metadata phase writes to the `N` scanned files
exactly the contiguous tracks `1..N`, one per file, assigned in ascending
order of each file's remote-map position; a file absent from the remote
map is keyed by the sentinel `999` and is therefore ordered after every
file whose remote position is below `999` (but not necessarily after a
file mapped at `999` or above). -/
theorem C10_amended_reindex (locals : List LocalSong)
    (rmap : String → Option Int) :
    (update_tasks locals rmap).map Prod.snd = List.range' 1 locals.length ∧
    (sortReindex (reindexPairs locals rmap)).Perm (reindexPairs locals rmap) ∧
    List.Sorted pairLe (sortReindex (reindexPairs locals rmap)) ∧
    (∀ s : LocalSong, s ∈ locals → rmap s.id = none →
      ((999 : Int), s.path) ∈ reindexPairs locals rmap) ∧
    ∀ i j : Fin (sortReindex (reindexPairs locals rmap)).length,
      ((sortReindex (reindexPairs locals rmap)).get i).1 < 999 →
      999 ≤ ((sortReindex (reindexPairs locals rmap)).get j).1 → i < j := by
  have hperm : (sortReindex (reindexPairs locals rmap)).Perm
      (reindexPairs locals rmap) := List.perm_insertionSort pairLe _
  have hsorted : List.Sorted pairLe (sortReindex (reindexPairs locals rmap)) :=
    List.sorted_insertionSort pairLe _
  refine ⟨?_, hperm, hsorted, ?_, ?_⟩
  · unfold update_tasks
    have h1 : ((sortReindex (reindexPairs locals rmap)).enum.map
        (fun p => ((p.2.2 : String), p.1 + 1))).map Prod.snd =
        (sortReindex (reindexPairs locals rmap)).enum.map (fun p => p.1 + 1) := by
      rw [List.map_map]
      rfl
    rw [h1]
    have h2 : (sortReindex (reindexPairs locals rmap)).enum.map
        (fun p => p.1 + 1) =
        ((sortReindex (reindexPairs locals rmap)).enum.map Prod.fst).map
          (fun i => i + 1) := by
      rw [List.map_map]
      rfl
    rw [h2, List.enum_map_fst, List.range'_eq_map_range]
    have h3 : (sortReindex (reindexPairs locals rmap)).length = locals.length := by
      rw [hperm.length_eq]
      unfold reindexPairs
      rw [List.length_map]
    rw [h3]
    apply List.map_congr_left
    intro a _
    omega
  · intro s hs hnone
    have : ((rmap s.id).getD 999, s.path) ∈ reindexPairs locals rmap :=
      List.mem_map_of_mem _ hs
    rwa [hnone] at this
  · intro i j hi hj
    rcases lt_trichotomy i j with h | h | h
    · exact h
    · exfalso
      rw [h] at hi
      omega
    · exfalso
      have := List.pairwise_iff_get.mp hsorted j i h
      have hle : ((sortReindex (reindexPairs locals rmap)).get j).1 ≤
          ((sortReindex (reindexPairs locals rmap)).get i).1 := this
      omega

/-- C4 counterexample: the external tool reports success while the
directory (as it stands after the invocation) contains **no** file whose
name contains the item's identifier — yet the unit reports success.  No
rescan/post-condition verification exists; a ghost success is reported as
success. -/
theorem C4_counterexample :
    (download_single "aaaaaaaaaaa" ⟨true, "", false⟩ ["other.m4a"]).1 =
      ("aaaaaaaaaaa", true, "") ∧
    ∀ f ∈ (download_single "aaaaaaaaaaa" ⟨true, "", false⟩ ["other.m4a"]).2,
      containsSub "aaaaaaaaaaa" f = false := by decide

/-- C4 (amended): the per-item fetch performs no post-condition rescan:
it reports success exactly when the primary invocation or the archival
fallback reports success, with the primary attempt's truncated output as
the error message otherwise — and the reported triple is entirely
independent of the directory contents. -/
theorem C4_amended_no_verification (vid : String) (env : ToolEnv)
    (dir dir' : List String) :
    (download_single vid env dir).1 =
      (vid, env.primaryOk || env.archiveOk,
        if env.primaryOk || env.archiveOk then ""
        else truncate_error env.primaryOut) ∧
    (download_single vid env dir).1 = (download_single vid env dir').1 := by
  cases hp : env.primaryOk <;> cases ha : env.archiveOk <;>
    simp [download_single, hp, ha]

/-- C5: whatever fault or crash occurs, the on-disk index file holds
either the complete previous document or the complete new one — never a
partial state; an error between the temp write and the rename is caught,
reports failure (`False`) and leaves the previous index byte-for-byte
intact (the partial temp file is removed); a crash between the write and
the rename likewise leaves the previous index intact, with only the
completed temp file left behind; completion installs exactly the new
document. -/
theorem C5_atomic_json_write_safe (doc : String) (st : FsState) :
    (∀ oc : AwOutcome, (atomic_json_write doc st oc).2.target = st.target ∨
      (atomic_json_write doc st oc).2.target = some doc) ∧
    (∀ p, atomic_json_write doc st (.writeFail p) =
      (some false, ⟨st.target, none⟩)) ∧
    atomic_json_write doc st .moveFail = (some false, ⟨st.target, none⟩) ∧
    atomic_json_write doc st .crashAfterWrite = (none, ⟨st.target, some doc⟩) ∧
    atomic_json_write doc st .complete = (some true, ⟨some doc, none⟩) := by
  refine ⟨?_, fun p => rfl, rfl, rfl, rfl⟩
  intro oc
  cases oc <;>
    simp [atomic_json_write, moveStep, writeStep, mkstempStep, awHandler]

/-- C7 counterexample: two distinct files (`004 - abc.m4a` with content
token 0 and `abc.m4a` with content token 1, both carrying embedded track
5) compute the same canonical name `005 - abc.m4a`; neither collides with
an existing file at planning time, so both renames are executed, and the
second silently overwrites the first — content token 0 of an existing
distinct file is destroyed by the run. -/
theorem C7_counterexample :
    ("004 - abc.m4a", 0) ∈ demoDirC7 ∧
    rename_files_to_indexed_format demoDirC7 demoTrackC7 (fun _ => none) =
      [("005 - abc.m4a", 1)] ∧
    ∀ e ∈ rename_files_to_indexed_format demoDirC7 demoTrackC7 (fun _ => none),
      e.2 ≠ 0 := by decide

/-- C7 (amended): the renamer plans a filesystem operation only for files
whose canonical name differs from the current name, and never targets a
name present in the directory at the start of the run (a collision with an
existing distinct file is skipped with a warning) — so it never overwrites
a file under the name it held at run start; but two planned renames may
share a target (as they are only checked against the initial directory),
in which case the later rename silently overwrites the earlier one's
result.  With an empty plan the directory is untouched. -/
theorem C7_amended_renamer (dir : List (String × Nat))
    (trackOf : String → Nat) (remote_map : String → Option Int) :
    (∀ e ∈ renamePlan dir trackOf remote_map,
      e.1 ≠ e.2.1 ∧ e.2.1 ∉ dirNames dir) ∧
    (renamePlan dir trackOf remote_map = [] →
      rename_files_to_indexed_format dir trackOf remote_map = dir) := by
  constructor
  · intro e he
    obtain ⟨f, hf, hplan⟩ := List.mem_filterMap.mp he
    unfold planOne at hplan
    split at hplan
    · exact absurd hplan (by simp)
    · split at hplan
      · exact absurd hplan (by simp)
      · split at hplan
        · exact absurd hplan (by simp)
        case isFalse h2 h3 =>
          injection hplan with hplan'
          subst hplan'
          dsimp only
          refine ⟨fun hc => h2 hc, ?_⟩
          intro hmem
          exact h3 ⟨List.elem_iff.mpr hmem, fun hc => h2 hc.symm⟩
  · intro hempty
    unfold rename_files_to_indexed_format
    rw [hempty]
    rfl

/-- Witness for the amended C7 at the concrete colliding demo directory:
its plan's entries change the name and avoid initially-present names. -/
theorem C7_amended_renamer_witness :
    (∀ e ∈ renamePlan demoDirC7 demoTrackC7 (fun _ => none),
      e.1 ≠ e.2.1 ∧ e.2.1 ∉ dirNames demoDirC7) ∧
    (renamePlan demoDirC7 demoTrackC7 (fun _ => none) = [] →
      rename_files_to_indexed_format demoDirC7 demoTrackC7 (fun _ => none) =
        demoDirC7) :=
  C7_amended_renamer demoDirC7 demoTrackC7 (fun _ => none)
